import Mathlib

/-
Shallow embedding of src/sarifdump.py (davidmalcolm/sarif-dump).

The loaded SARIF document is a tree of nested dicts/lists/strings/ints,
modelled by `JVal`.  The `GccStyleDumper` object is modelled by a record
carrying its three fields: `base_path`, the text written so far to
`dst_file` (the output sink is modelled as the string of bytes written to
it), and `last_logical_location`.  Python dictionary/list accesses that can
raise (KeyError / IndexError / TypeError) are modelled in
`Except GccStyleDumper GccStyleDumper`: an `.error st` result is an
unhandled exception propagating with `st` the dumper state at the moment of
failure (so `st.dst_file` is the output already written when the error was
raised).
-/

/-- A JSON-like value of the loaded SARIF tree: strings, integers, ordered
sequences, and objects as ordered association lists (dicts from a JSON
loader preserve document order and have no duplicate keys). -/
inductive JVal where
  | str (s : String)
  | num (n : Int)
  | arr (elems : List JVal)
  | obj (fields : List (String × JVal))

mutual
/-- Structural (deep value) equality of loaded values, the equality Python's
`==` computes on the loader's trees. -/
def JVal.beq : JVal → JVal → Bool
  | .str a, .str b => a == b
  | .num a, .num b => a == b
  | .arr a, .arr b => JVal.beqList a b
  | .obj a, .obj b => JVal.beqFields a b
  | _, _ => false

def JVal.beqList : List JVal → List JVal → Bool
  | [], [] => true
  | a :: as, b :: bs => JVal.beq a b && JVal.beqList as bs
  | _, _ => false

def JVal.beqFields : List (String × JVal) → List (String × JVal) → Bool
  | [], [] => true
  | (k, v) :: as, (l, w) :: bs =>
      k == l && JVal.beq v w && JVal.beqFields as bs
  | _, _ => false
end

mutual
theorem JVal.beq_iff : ∀ a b : JVal, JVal.beq a b = true ↔ a = b
  | .str a, .str b => by simp [JVal.beq]
  | .str _, .num _ => by simp [JVal.beq]
  | .str _, .arr _ => by simp [JVal.beq]
  | .str _, .obj _ => by simp [JVal.beq]
  | .num _, .str _ => by simp [JVal.beq]
  | .num a, .num b => by simp [JVal.beq]
  | .num _, .arr _ => by simp [JVal.beq]
  | .num _, .obj _ => by simp [JVal.beq]
  | .arr _, .str _ => by simp [JVal.beq]
  | .arr _, .num _ => by simp [JVal.beq]
  | .arr a, .arr b => by simp [JVal.beq, JVal.beqList_iff a b]
  | .arr _, .obj _ => by simp [JVal.beq]
  | .obj _, .str _ => by simp [JVal.beq]
  | .obj _, .num _ => by simp [JVal.beq]
  | .obj _, .arr _ => by simp [JVal.beq]
  | .obj a, .obj b => by simp [JVal.beq, JVal.beqFields_iff a b]

theorem JVal.beqList_iff : ∀ a b : List JVal, JVal.beqList a b = true ↔ a = b
  | [], [] => by simp [JVal.beqList]
  | [], _ :: _ => by simp [JVal.beqList]
  | _ :: _, [] => by simp [JVal.beqList]
  | a :: as, b :: bs => by
      simp [JVal.beqList, JVal.beq_iff a b, JVal.beqList_iff as bs]

theorem JVal.beqFields_iff :
    ∀ a b : List (String × JVal), JVal.beqFields a b = true ↔ a = b
  | [], [] => by simp [JVal.beqFields]
  | [], _ :: _ => by simp [JVal.beqFields]
  | _ :: _, [] => by simp [JVal.beqFields]
  | (k, v) :: as, (l, w) :: bs => by
      simp [JVal.beqFields, JVal.beq_iff v w, JVal.beqFields_iff as bs,
        and_assoc, Prod.ext_iff]
end

instance : DecidableEq JVal := fun a b =>
  decidable_of_iff (JVal.beq a b = true) (JVal.beq_iff a b)

/-- Python `v[k]` / `k in v` support: key lookup on an object, `none` when
the key is absent or `v` is not a dict (where indexing by a string key
raises). -/
def JVal.lookup? : JVal → String → Option JVal
  | .obj fields, k => fields.lookup k
  | _, _ => none

/-- Python `k in v` for the record accesses of the source (`'locations' in
result` and the like); all such values are dicts in well-formed input. -/
def JVal.hasKey (v : JVal) (k : String) : Bool :=
  (v.lookup? k).isSome

/-- Python `v[i]` for a sequence: `none` when out of range or `v` is not a
sequence (IndexError / TypeError). -/
def JVal.index? : JVal → Nat → Option JVal
  | .arr elems, i => elems.get? i
  | _, _ => none

/-- Python truthiness, for `if location['logicalLocations']:`. -/
def JVal.truthy : JVal → Bool
  | .str s => !s.isEmpty
  | .num n => n != 0
  | .arr elems => !elems.isEmpty
  | .obj fields => !fields.isEmpty

mutual
/-- Python `repr` of a loaded value (used by `str` on lists and dicts). -/
def JVal.pyRepr : JVal → String
  | .str s => "\x27" ++ s ++ "\x27"
  | .num n => toString n
  | .arr elems => "[" ++ JVal.pyReprList elems ++ "]"
  | .obj fields => "\x7b" ++ JVal.pyReprFields fields ++ "\x7d"

def JVal.pyReprList : List JVal → String
  | [] => ""
  | [v] => JVal.pyRepr v
  | v :: rest => JVal.pyRepr v ++ ", " ++ JVal.pyReprList rest

def JVal.pyReprFields : List (String × JVal) → String
  | [] => ""
  | [kv] => "\x27" ++ kv.1 ++ "\x27: " ++ JVal.pyRepr kv.2
  | kv :: rest =>
      "\x27" ++ kv.1 ++ "\x27: " ++ JVal.pyRepr kv.2 ++ ", " ++
        JVal.pyReprFields rest
end

/-- Python `'%s' % v`: the string itself for a str, `str(v)` otherwise. -/
def JVal.pyStr : JVal → String
  | .str s => s
  | v => v.pyRepr

/-- Whether a path string is absolute (begins with the separator). -/
def isAbsolutePath (p : String) : Bool :=
  match p.data with
  | []      => false
  | c :: _  => c = '/'

/-- Whether a path string already ends with the separator. -/
def endsWithSep (p : String) : Bool :=
  match p.data.getLast? with
  | some c => c = '/'
  | none => false

/-- `Path(base_path, filename)` rendered as a string, for the paths the
dumper builds: an absolute `filename` discards `base_path`; an empty
`base_path` contributes nothing; otherwise the two are joined with a
separator (pathlib's further normalisations do not arise for the loader's
directory paths and document URIs). -/
def pathJoin (base filename : String) : String :=
  if isAbsolutePath filename then filename
  else if base = "" then filename
  else if endsWithSep base then base ++ filename
  else base ++ "/" ++ filename

/-- The state of a `GccStyleDumper` instance: `base_path` from the
constructor, `dst_file` as the text written so far to the sink, and the
cross-result `last_logical_location` memo. -/
structure GccStyleDumper where
  base_path : String
  dst_file : String
  last_logical_location : Option JVal
deriving DecidableEq

/-- `GccStyleDumper.__init__`: a fresh dumper for a sink with nothing yet
written and `last_logical_location = None`. -/
def mkGccStyleDumper (base_path : String) : GccStyleDumper :=
  { base_path := base_path, dst_file := "", last_logical_location := none }

/-- `self.write(text)`: append to the output sink. -/
def GccStyleDumper.write (st : GccStyleDumper) (text : String) : GccStyleDumper :=
  { st with dst_file := st.dst_file ++ text }

/-- `self.writeln()`. -/
def GccStyleDumper.writeln (st : GccStyleDumper) : GccStyleDumper :=
  st.write "\n"

/-- An erroring record access: Python raises, the exception carries away the
dumper with whatever was already written. -/
abbrev DumpResult := Except GccStyleDumper GccStyleDumper

/-- `write_logical_location` (§3.33): dedup against
`last_logical_location`, update the memo, and emit the
`In function \x27...\x27:` header for kind `"function"`.  Note the source
stores the new value before reading `kind`, so the memo is updated even
when the `kind` access raises. -/
def write_logical_location (st : GccStyleDumper) (logicalLocation : JVal) :
    DumpResult :=
  if some logicalLocation = st.last_logical_location then
    .ok st
  else
    let st := { st with last_logical_location := some logicalLocation }
    match logicalLocation.lookup? "kind" with
    | none => .error st
    | some kind =>
        if kind = .str "function" then
          match logicalLocation.lookup? "fullyQualifiedName" with
          | none => .error st
          | some fqn =>
              .ok ((st.write ("In function \x27" ++ fqn.pyStr ++ "\x27:")).writeln)
        else
          .ok st

/-- `write_physical_location` (§3.29): `artifactLocation.uri` and `region`
are read unconditionally; `startLine` is required; only `startColumn` is
guarded by a presence check.  `%i` requires an integer and `Path` a string
URI (a TypeError before anything of the failing `write` is written); the
source re-reads `physicalLocation['region']` for the column, which is the
same value as the bound `region`. -/
def write_physical_location (st : GccStyleDumper) (physicalLocation : JVal) :
    DumpResult :=
  match physicalLocation.lookup? "artifactLocation" with
  | none => .error st
  | some artifactLocation =>
      match artifactLocation.lookup? "uri" with
      | none => .error st
      | some filename =>
          match physicalLocation.lookup? "region" with
          | none => .error st
          | some region =>
              match region.lookup? "startLine" with
              | none => .error st
              | some startLine =>
                  match filename, startLine with
                  | .str uri, .num line =>
                      let st := st.write
                        (pathJoin st.base_path uri ++ ":" ++ toString line ++ ":")
                      if region.hasKey "startColumn" then
                        match region.lookup? "startColumn" with
                        | some (.num col) =>
                            .ok ((st.write (toString col ++ ":")).write " ")
                        | _ => .error st
                      else
                        .ok (st.write " ")
                  | _, _ => .error st

/-- `write_location` (§3.28): a present, truthy (non-empty)
`logicalLocations` sequence has its first entry rendered; then a present
`physicalLocation` is rendered. -/
def write_location (st : GccStyleDumper) (location : JVal) : DumpResult :=
  let afterLogical : DumpResult :=
    match location.lookup? "logicalLocations" with
    | none => .ok st
    | some lls =>
        if lls.truthy then
          match lls.index? 0 with
          | none => .error st
          | some ll => write_logical_location st ll
        else
          .ok st
  match afterLogical with
  | .error e => .error e
  | .ok st =>
      match location.lookup? "physicalLocation" with
      | none => .ok st
      | some physicalLocation => write_physical_location st physicalLocation

/-- `write_reporting_descriptor_reference` (§3.52): emits only for tool
component name `"cwe"`. -/
def write_reporting_descriptor_reference (st : GccStyleDumper) (rdr : JVal) :
    DumpResult :=
  match rdr.lookup? "toolComponent" with
  | none => .ok st
  | some toolComponent =>
      match toolComponent.lookup? "name" with
      | none => .error st
      | some name =>
          if name = .str "cwe" then
            match rdr.lookup? "id" with
            | none => .error st
            | some i => .ok (st.write (" [CWE-" ++ i.pyStr ++ "]"))
          else
            .ok st

/-- The `for rdr in result['taxa']` loop body applied in order. -/
def write_taxa (st : GccStyleDumper) : List JVal → DumpResult
  | [] => .ok st
  | rdr :: rest =>
      match write_reporting_descriptor_reference st rdr with
      | .error e => .error e
      | .ok st => write_taxa st rest

/-- `write_thread_flow_location` (§3.38): render the step's location, the
1-based `(i) ` index, and the step's own `location.message.text`; the text
is handed to `dst_file.write`, which requires a string. -/
def write_thread_flow_location (st : GccStyleDumper) (idx : Nat)
    (threadFlowLocation : JVal) : DumpResult :=
  match threadFlowLocation.lookup? "location" with
  | none => .error st
  | some location =>
      match write_location st location with
      | .error e => .error e
      | .ok st =>
          let st := st.write ("(" ++ toString (idx + 1) ++ ") ")
          match location.lookup? "message" with
          | none => .error st
          | some message =>
              match message.lookup? "text" with
              | none => .error st
              | some (.str text) => .ok ((st.write text).writeln)
              | some _ => .error st

/-- The `for idx, loc in enumerate(threadFlow['locations'])` loop. -/
def write_thread_flow_steps (st : GccStyleDumper) (idx : Nat) :
    List JVal → DumpResult
  | [] => .ok st
  | loc :: rest =>
      match write_thread_flow_location st idx loc with
      | .error e => .error e
      | .ok st => write_thread_flow_steps st (idx + 1) rest

/-- `write_thread_flow` (§3.37): iterate the steps with a 0-based
`enumerate` index (printed 1-based by `write_thread_flow_location`);
iterating a non-sequence raises. -/
def write_thread_flow (st : GccStyleDumper) (threadFlow : JVal) : DumpResult :=
  match threadFlow.lookup? "locations" with
  | none => .error st
  | some (.arr locs) => write_thread_flow_steps st 0 locs
  | some _ => .error st

/-- `write_code_flow` (§3.36): only `threadFlows[0]` is rendered. -/
def write_code_flow (st : GccStyleDumper) (codeFlow : JVal) : DumpResult :=
  match codeFlow.lookup? "threadFlows" with
  | none => .error st
  | some threadFlows =>
      match threadFlows.index? 0 with
      | none => .error st
      | some threadFlow => write_thread_flow st threadFlow

/-- `dump_sarif_result` (§3.27): location prefix, level, message text,
taxa annotations, ruleId, newline, then the first code flow.  Iterating a
non-sequence `taxa` raises. -/
def dump_sarif_result (st : GccStyleDumper) (result : JVal) : DumpResult :=
  let afterLocation : DumpResult :=
    match result.lookup? "locations" with
    | none => .ok st
    | some locations =>
        match locations.index? 0 with
        | none => .error st
        | some loc => write_location st loc
  match afterLocation with
  | .error e => .error e
  | .ok st =>
      let st :=
        match result.lookup? "level" with
        | none => st
        | some level => st.write (level.pyStr ++ ": ")
      match result.lookup? "message" with
      | none => .error st
      | some message =>
          match message.lookup? "text" with
          | none => .error st
          | some text =>
              let st := st.write text.pyStr
              let afterTaxa : DumpResult :=
                match result.lookup? "taxa" with
                | none => .ok st
                | some (.arr rdrs) => write_taxa st rdrs
                | some _ => .error st
              match afterTaxa with
              | .error e => .error e
              | .ok st =>
                  let st :=
                    match result.lookup? "ruleId" with
                    | none => st
                    | some ruleId => st.write (" [" ++ ruleId.pyStr ++ "]")
                  let st := st.writeln
                  match result.lookup? "codeFlows" with
                  | none => .ok st
                  | some codeFlows =>
                      match codeFlows.index? 0 with
                      | none => .error st
                      | some codeFlow => write_code_flow st codeFlow

/-- `dump_sarif_file`: each result of the document in order; the document's
result list (the loader's `get_results()`) is the external input. -/
def dump_sarif_file (st : GccStyleDumper) : List JVal → DumpResult
  | [] => .ok st
  | result :: rest =>
      match dump_sarif_result st result with
      | .error e => .error e
      | .ok st => dump_sarif_file st rest

/-- The dumper state an invocation ends in, whether it returned or raised. -/
def outState : DumpResult → GccStyleDumper
  | .ok s => s
  | .error s => s

/-- Prepend earlier sink content to an invocation's outcome. -/
def prependOut (o : String) : DumpResult → DumpResult
  | .ok s => .ok { s with dst_file := o ++ s.dst_file }
  | .error s => .error { s with dst_file := o ++ s.dst_file }

/-- The logical locations `write_location` submits to
`write_logical_location` for one location object (at most one: the first
entry of a present, non-empty `logicalLocations` sequence). -/
def locLogicals (location : JVal) : List JVal :=
  match location.lookup? "logicalLocations" with
  | none => []
  | some lls =>
      if lls.truthy then
        match lls.index? 0 with
        | none => []
        | some ll => [ll]
      else []

/-- The logical locations encountered while rendering one trace step. -/
def stepLogicals (threadFlowLocation : JVal) : List JVal :=
  match threadFlowLocation.lookup? "location" with
  | none => []
  | some location => locLogicals location

/-- The logical locations encountered while rendering one thread flow. -/
def threadFlowLogicals (threadFlow : JVal) : List JVal :=
  match threadFlow.lookup? "locations" with
  | some (.arr locs) => (locs.map stepLogicals).flatten
  | _ => []

/-- The logical locations encountered while rendering one code flow. -/
def codeFlowLogicals (codeFlow : JVal) : List JVal :=
  match codeFlow.lookup? "threadFlows" with
  | none => []
  | some threadFlows =>
      match threadFlows.index? 0 with
      | none => []
      | some threadFlow => threadFlowLogicals threadFlow

/-- The logical locations encountered while rendering one result, in
document-traversal order: the first location's entry, then the entries of
the first code flow's first thread flow's steps. -/
def resultLogicals (result : JVal) : List JVal :=
  (match result.lookup? "locations" with
   | none => []
   | some locations =>
       match locations.index? 0 with
       | none => []
       | some loc => locLogicals loc) ++
  (match result.lookup? "codeFlows" with
   | none => []
   | some codeFlows =>
       match codeFlows.index? 0 with
       | none => []
       | some codeFlow => codeFlowLogicals codeFlow)

/-- All logical locations encountered over a document's results, in
document-traversal order. -/
def fileLogicals (results : List JVal) : List JVal :=
  (results.map resultLogicals).flatten

/-- The value of `last_logical_location` after a sequence of encounters:
each encounter leaves the slot holding that value (either it already held
it, or it is overwritten with it). -/
def updLast (init : Option JVal) (encounters : List JVal) : Option JVal :=
  encounters.foldl (fun _ ll => some ll) init

theorem updLast_nil (init : Option JVal) : updLast init [] = init := rfl

theorem updLast_append (init : Option JVal) (xs ys : List JVal) :
    updLast init (xs ++ ys) = updLast (updLast init xs) ys := by
  simp [updLast, List.foldl_append]

theorem write_base_path (st : GccStyleDumper) (t : String) :
    (st.write t).base_path = st.base_path := rfl

theorem write_last (st : GccStyleDumper) (t : String) :
    (st.write t).last_logical_location = st.last_logical_location := rfl

/-- `write_logical_location` leaves the memo holding exactly the value it
was given, whether it wrote a header, was deduplicated, or raised after
storing the value. -/
theorem write_logical_location_last (st : GccStyleDumper) (ll : JVal) :
    (outState (write_logical_location st ll)).last_logical_location = some ll ∧
    (outState (write_logical_location st ll)).base_path = st.base_path := by
  unfold write_logical_location
  by_cases h : some ll = st.last_logical_location
  · simp [h, outState]
  · simp only [h, if_false]
    cases hk : ll.lookup? "kind" with
    | none => simp [outState]
    | some kind =>
        by_cases hf : kind = JVal.str "function"
        · cases hq : ll.lookup? "fullyQualifiedName" with
          | none => simp [hf, hq, outState]
          | some fqn =>
              simp [hf, hq, outState, GccStyleDumper.write, GccStyleDumper.writeln]
        · simp [hf, outState]

/-- `write_physical_location` never touches the memo or the base path. -/
theorem write_physical_location_state (st : GccStyleDumper)
    (physicalLocation : JVal) :
    (outState (write_physical_location st physicalLocation)).last_logical_location =
      st.last_logical_location ∧
    (outState (write_physical_location st physicalLocation)).base_path =
      st.base_path := by
  unfold write_physical_location
  repeat' split
  all_goals simp [outState, GccStyleDumper.write]

/-- A successful `write_location` leaves the memo after the location's
logical-location encounters, and the base path unchanged. -/
theorem write_location_state (st : GccStyleDumper) (location : JVal)
    (s : GccStyleDumper) (h : write_location st location = .ok s) :
    s.last_logical_location =
      updLast st.last_logical_location (locLogicals location) ∧
    s.base_path = st.base_path := by
  unfold write_location at h
  unfold locLogicals
  cases hll : location.lookup? "logicalLocations" with
  | none =>
      simp only [hll] at h
      cases hp : location.lookup? "physicalLocation" with
      | none =>
          simp only [hp] at h
          cases h
          simp [updLast]
      | some pl =>
          simp only [hp] at h
          have := write_physical_location_state st pl
          rw [h] at this
          simpa [updLast] using this
  | some lls =>
      simp only [hll] at h
      cases ht : lls.truthy with
      | true =>
          simp only [ht, if_true] at h ⊢
          cases hi : lls.index? 0 with
          | none =>
              simp only [hi] at h
              exact Except.noConfusion h
          | some ll =>
              simp only [hi] at h ⊢
              cases hw : write_logical_location st ll with
              | error e =>
                  simp only [hw] at h
                  exact Except.noConfusion h
              | ok st1 =>
                  simp only [hw] at h
                  have h1 := write_logical_location_last st ll
                  rw [hw] at h1
                  simp only [outState] at h1
                  cases hp : location.lookup? "physicalLocation" with
                  | none =>
                      simp only [hp] at h
                      cases h
                      simp [updLast, h1.1, h1.2]
                  | some pl =>
                      simp only [hp] at h
                      have h2 := write_physical_location_state st1 pl
                      rw [h] at h2
                      simp only [outState] at h2
                      simp [updLast, h2.1, h2.2, h1.1, h1.2]
      | false =>
          simp only [ht] at h ⊢
          simp only [Bool.false_eq_true, if_false] at h ⊢
          cases hp : location.lookup? "physicalLocation" with
          | none =>
              simp only [hp] at h
              cases h
              simp [updLast]
          | some pl =>
              simp only [hp] at h
              have := write_physical_location_state st pl
              rw [h] at this
              simpa [updLast] using this

/-- Taxa rendering never touches the memo or the base path. -/
theorem write_reporting_descriptor_reference_state (st : GccStyleDumper)
    (rdr : JVal) :
    (outState (write_reporting_descriptor_reference st rdr)).last_logical_location =
      st.last_logical_location ∧
    (outState (write_reporting_descriptor_reference st rdr)).base_path =
      st.base_path := by
  unfold write_reporting_descriptor_reference
  repeat' split
  all_goals simp [outState, GccStyleDumper.write]

theorem write_taxa_state (rdrs : List JVal) (st : GccStyleDumper) :
    (outState (write_taxa st rdrs)).last_logical_location =
      st.last_logical_location ∧
    (outState (write_taxa st rdrs)).base_path = st.base_path := by
  induction rdrs generalizing st with
  | nil => simp [write_taxa, outState]
  | cons rdr rest ih =>
      unfold write_taxa
      cases hw : write_reporting_descriptor_reference st rdr with
      | error e =>
          have := write_reporting_descriptor_reference_state st rdr
          rw [hw] at this
          simpa [outState] using this
      | ok st1 =>
          have h1 := write_reporting_descriptor_reference_state st rdr
          rw [hw] at h1
          simp only [outState] at h1
          have h2 := ih st1
          simp only [outState] at h2 ⊢
          rw [h1.1] at h2
          rw [h1.2] at h2
          exact h2

/-- A successful trace-step render leaves the memo after the step's
logical-location encounters. -/
theorem write_thread_flow_location_state (st : GccStyleDumper) (idx : Nat)
    (threadFlowLocation : JVal) (s : GccStyleDumper)
    (h : write_thread_flow_location st idx threadFlowLocation = .ok s) :
    s.last_logical_location =
      updLast st.last_logical_location (stepLogicals threadFlowLocation) ∧
    s.base_path = st.base_path := by
  unfold write_thread_flow_location at h
  unfold stepLogicals
  cases hl : threadFlowLocation.lookup? "location" with
  | none =>
      simp only [hl] at h
      exact Except.noConfusion h
  | some location =>
      simp only [hl] at h ⊢
      cases hw : write_location st location with
      | error e =>
          simp only [hw] at h
          exact Except.noConfusion h
      | ok st1 =>
          simp only [hw] at h
          have h1 := write_location_state st location st1 hw
          cases hm : location.lookup? "message" with
          | none =>
              simp only [hm] at h
              exact Except.noConfusion h
          | some message =>
              simp only [hm] at h
              cases hmt : message.lookup? "text" with
              | none =>
                  simp only [hmt] at h
                  exact Except.noConfusion h
              | some text =>
                  simp only [hmt] at h
                  cases text with
                  | str t =>
                      cases h
                      simp [GccStyleDumper.write, GccStyleDumper.writeln,
                        h1.1, h1.2]
                  | num n => exact Except.noConfusion h
                  | arr a => exact Except.noConfusion h
                  | obj o => exact Except.noConfusion h

theorem write_thread_flow_steps_state (locs : List JVal)
    (st : GccStyleDumper) (idx : Nat) (s : GccStyleDumper)
    (h : write_thread_flow_steps st idx locs = .ok s) :
    s.last_logical_location =
      updLast st.last_logical_location ((locs.map stepLogicals).flatten) ∧
    s.base_path = st.base_path := by
  induction locs generalizing st idx with
  | nil =>
      cases h
      simp [updLast]
  | cons loc rest ih =>
      unfold write_thread_flow_steps at h
      cases hw : write_thread_flow_location st idx loc with
      | error e =>
          simp only [hw] at h
          exact Except.noConfusion h
      | ok st1 =>
          simp only [hw] at h
          have h1 := write_thread_flow_location_state st idx loc st1 hw
          have h2 := ih st1 (idx + 1) h
          simp only [List.map_cons, List.flatten_cons]
          rw [updLast_append]
          rw [h1.1] at h2
          exact ⟨h2.1, h2.2.trans h1.2⟩

theorem write_thread_flow_state (st : GccStyleDumper) (threadFlow : JVal)
    (s : GccStyleDumper) (h : write_thread_flow st threadFlow = .ok s) :
    s.last_logical_location =
      updLast st.last_logical_location (threadFlowLogicals threadFlow) ∧
    s.base_path = st.base_path := by
  unfold write_thread_flow at h
  unfold threadFlowLogicals
  cases hl : threadFlow.lookup? "locations" with
  | none =>
      simp only [hl] at h
      exact Except.noConfusion h
  | some v =>
      simp only [hl] at h ⊢
      cases v with
      | arr locs => exact write_thread_flow_steps_state locs st 0 s h
      | str t => exact Except.noConfusion h
      | num n => exact Except.noConfusion h
      | obj o => exact Except.noConfusion h

theorem write_code_flow_state (st : GccStyleDumper) (codeFlow : JVal)
    (s : GccStyleDumper) (h : write_code_flow st codeFlow = .ok s) :
    s.last_logical_location =
      updLast st.last_logical_location (codeFlowLogicals codeFlow) ∧
    s.base_path = st.base_path := by
  unfold write_code_flow at h
  unfold codeFlowLogicals
  cases hl : codeFlow.lookup? "threadFlows" with
  | none =>
      simp only [hl] at h
      exact Except.noConfusion h
  | some threadFlows =>
      simp only [hl] at h ⊢
      cases hi : threadFlows.index? 0 with
      | none =>
          simp only [hi] at h
          exact Except.noConfusion h
      | some threadFlow =>
          simp only [hi] at h
          exact write_thread_flow_state st threadFlow s h

/-- A successful result render leaves the memo after all the result's
logical-location encounters (first location, then the trace steps of the
first code flow's first thread flow), and the base path unchanged. -/
theorem dump_sarif_result_state (st : GccStyleDumper) (result : JVal)
    (s : GccStyleDumper) (h : dump_sarif_result st result = .ok s) :
    s.last_logical_location =
      updLast st.last_logical_location (resultLogicals result) ∧
    s.base_path = st.base_path := by
  unfold dump_sarif_result at h
  unfold resultLogicals
  have stage1 :
      ∃ st1 : GccStyleDumper,
        (match result.lookup? "locations" with
          | none => Except.ok st
          | some locations =>
              match locations.index? 0 with
              | none => Except.error st
              | some loc => write_location st loc) = .ok st1 ∧
        st1.last_logical_location =
          updLast st.last_logical_location
            (match result.lookup? "locations" with
              | none => []
              | some locations =>
                  match locations.index? 0 with
                  | none => []
                  | some loc => locLogicals loc) ∧
        st1.base_path = st.base_path := by
    cases hL : result.lookup? "locations" with
    | none =>
        refine ⟨st, rfl, ?_, rfl⟩
        simp [updLast]
    | some locations =>
        cases hI : locations.index? 0 with
        | none =>
            simp only [hL, hI] at h
            exact Except.noConfusion h
        | some loc =>
            cases hW : write_location st loc with
            | error e =>
                simp only [hL, hI, hW] at h
                exact Except.noConfusion h
            | ok st1 =>
                have h1 := write_location_state st loc st1 hW
                refine ⟨st1, ?_, ?_, h1.2⟩
                · simp only [hI]
                  exact hW
                · simp only [hI]
                  exact h1.1
  obtain ⟨st1, hst1, hlast1, hbase1⟩ := stage1
  rw [hst1] at h
  simp only [] at h
  set st2 : GccStyleDumper :=
    (match result.lookup? "level" with
      | none => st1
      | some level => st1.write (level.pyStr ++ ": ")) with hst2
  have hlast2 : st2.last_logical_location = st1.last_logical_location ∧
      st2.base_path = st1.base_path := by
    rw [hst2]
    cases result.lookup? "level" <;> simp [GccStyleDumper.write]
  cases hM : result.lookup? "message" with
  | none =>
      simp only [hM] at h
      exact Except.noConfusion h
  | some message =>
      simp only [hM] at h
      cases hT : message.lookup? "text" with
      | none =>
          simp only [hT] at h
          exact Except.noConfusion h
      | some text =>
          simp only [hT] at h
          set st3 : GccStyleDumper := st2.write text.pyStr with hst3
          have hlast3 : st3.last_logical_location = st1.last_logical_location ∧
              st3.base_path = st1.base_path := by
            rw [hst3]
            simpa [GccStyleDumper.write] using hlast2
          have stage4 :
              ∃ st4 : GccStyleDumper,
                (match result.lookup? "taxa" with
                  | none => Except.ok st3
                  | some (.arr rdrs) => write_taxa st3 rdrs
                  | some _ => Except.error st3) = .ok st4 ∧
                st4.last_logical_location = st1.last_logical_location ∧
                st4.base_path = st1.base_path := by
            cases hTx : result.lookup? "taxa" with
            | none => exact ⟨st3, rfl, hlast3.1, hlast3.2⟩
            | some v =>
                cases v with
                | arr rdrs =>
                    cases hwt : write_taxa st3 rdrs with
                    | error e =>
                        simp only [hTx, hwt] at h
                        exact Except.noConfusion h
                    | ok st4 =>
                        have h4 := write_taxa_state rdrs st3
                        rw [hwt] at h4
                        simp only [outState] at h4
                        exact ⟨st4, hwt, h4.1.trans hlast3.1,
                          h4.2.trans hlast3.2⟩
                | str tv =>
                    simp only [hTx] at h
                    exact Except.noConfusion h
                | num nv =>
                    simp only [hTx] at h
                    exact Except.noConfusion h
                | obj ov =>
                    simp only [hTx] at h
                    exact Except.noConfusion h
          obtain ⟨st4, hst4, hlast4, hbase4⟩ := stage4
          rw [hst4] at h
          simp only [] at h
          set st5 : GccStyleDumper :=
            (match result.lookup? "ruleId" with
              | none => st4
              | some ruleId => st4.write (" [" ++ ruleId.pyStr ++ "]")) with hst5
          have hlast5 : st5.last_logical_location = st1.last_logical_location ∧
              st5.base_path = st1.base_path := by
            rw [hst5]
            cases result.lookup? "ruleId" <;>
              simp [GccStyleDumper.write, hlast4, hbase4]
          set st6 : GccStyleDumper := st5.writeln with hst6
          have hlast6 : st6.last_logical_location = st1.last_logical_location ∧
              st6.base_path = st1.base_path := by
            rw [hst6]
            simpa [GccStyleDumper.writeln, GccStyleDumper.write] using hlast5
          cases hCf : result.lookup? "codeFlows" with
          | none =>
              simp only [hCf] at h
              have h6 : st6 = s := by injection h
              subst h6
              constructor
              · rw [hlast6.1, hlast1]
                simp [updLast]
              · rw [hlast6.2, hbase1]
          | some codeFlows =>
              simp only [hCf] at h
              cases hI2 : codeFlows.index? 0 with
              | none =>
                  simp only [hI2] at h
                  exact Except.noConfusion h
              | some codeFlow =>
                  simp only [hI2] at h
                  have hc := write_code_flow_state st6 codeFlow s h
                  constructor
                  · rw [hc.1, hlast6.1, hlast1, updLast_append]
                    simp only [hI2]
                  · rw [hc.2, hlast6.2, hbase1]

/-- A successful document render leaves the memo after all encounters of
the whole document, in document-traversal order, and the base path
unchanged. -/
theorem dump_sarif_file_state (results : List JVal) (st : GccStyleDumper)
    (s : GccStyleDumper) (h : dump_sarif_file st results = .ok s) :
    s.last_logical_location =
      updLast st.last_logical_location (fileLogicals results) ∧
    s.base_path = st.base_path := by
  induction results generalizing st with
  | nil =>
      cases h
      simp [fileLogicals, updLast]
  | cons result rest ih =>
      unfold dump_sarif_file at h
      cases hw : dump_sarif_result st result with
      | error e =>
          simp only [hw] at h
          exact Except.noConfusion h
      | ok st1 =>
          simp only [hw] at h
          have h1 := dump_sarif_result_state st result st1 hw
          have h2 := ih st1 h
          rw [h1.1] at h2
          simp only [fileLogicals, List.map_cons, List.flatten_cons]
          rw [updLast_append]
          exact ⟨h2.1, h2.2.trans h1.2⟩

/-- Rendering depends on the sink only by appending: a header write from a
shifted sink is the shifted header write. -/
theorem write_logical_location_shift (o : String) (st : GccStyleDumper)
    (ll : JVal) :
    write_logical_location { st with dst_file := o ++ st.dst_file } ll =
      prependOut o (write_logical_location st ll) := by
  unfold write_logical_location
  by_cases h : some ll = st.last_logical_location
  · simp [h, prependOut]
  · simp only [h, if_false]
    cases hk : ll.lookup? "kind" with
    | none => simp [prependOut]
    | some kind =>
        by_cases hf : kind = JVal.str "function"
        · cases hq : ll.lookup? "fullyQualifiedName" with
          | none => simp [hf, hq, prependOut]
          | some fqn =>
              simp [hf, hq, prependOut, GccStyleDumper.write,
                GccStyleDumper.writeln, String.append_assoc]
        · simp [hf, prependOut]

theorem write_physical_location_shift (o : String) (st : GccStyleDumper)
    (physicalLocation : JVal) :
    write_physical_location { st with dst_file := o ++ st.dst_file }
        physicalLocation =
      prependOut o (write_physical_location st physicalLocation) := by
  unfold write_physical_location
  cases ha : physicalLocation.lookup? "artifactLocation" with
  | none => simp [ha, prependOut]
  | some artifactLocation =>
      simp only [ha]
      cases hu : artifactLocation.lookup? "uri" with
      | none => simp [hu, prependOut]
      | some filename =>
          simp only [hu]
          cases hr : physicalLocation.lookup? "region" with
          | none => simp [hr, prependOut]
          | some region =>
              simp only [hr]
              cases hs : region.lookup? "startLine" with
              | none => simp [hs, prependOut]
              | some startLine =>
                  simp only [hs]
                  cases filename with
                  | str uri =>
                      cases startLine with
                      | num line =>
                          cases hc : region.hasKey "startColumn" with
                          | false =>
                              simp [hc, prependOut, GccStyleDumper.write,
                                String.append_assoc]
                          | true =>
                              simp only [hc, if_true]
                              cases hcv : region.lookup? "startColumn" with
                              | none =>
                                  simp [hcv, prependOut,
                                    GccStyleDumper.write, String.append_assoc]
                              | some cv =>
                                  cases cv <;>
                                    simp [hcv, prependOut,
                                      GccStyleDumper.write, String.append_assoc]
                      | str a => simp [prependOut]
                      | arr a => simp [prependOut]
                      | obj a => simp [prependOut]
                  | num a => cases startLine <;> simp [prependOut]
                  | arr a => cases startLine <;> simp [prependOut]
                  | obj a => cases startLine <;> simp [prependOut]

theorem write_location_shift (o : String) (st : GccStyleDumper)
    (location : JVal) :
    write_location { st with dst_file := o ++ st.dst_file } location =
      prependOut o (write_location st location) := by
  unfold write_location
  cases hll : location.lookup? "logicalLocations" with
  | none =>
      simp only [hll]
      cases hp : location.lookup? "physicalLocation" with
      | none => simp [prependOut]
      | some pl => simp [write_physical_location_shift]
  | some lls =>
      simp only [hll]
      cases ht : lls.truthy with
      | false =>
          simp only [ht, Bool.false_eq_true, if_false]
          cases hp : location.lookup? "physicalLocation" with
          | none => simp [prependOut]
          | some pl => simp [write_physical_location_shift]
      | true =>
          simp only [ht, if_true]
          cases hi : lls.index? 0 with
          | none => simp [prependOut]
          | some ll =>
              simp only [write_logical_location_shift]
              cases hw : write_logical_location st ll with
              | error e => simp [prependOut]
              | ok st1 =>
                  simp only [prependOut]
                  cases hp : location.lookup? "physicalLocation" with
                  | none => simp [prependOut]
                  | some pl => simp [write_physical_location_shift, prependOut]

theorem write_reporting_descriptor_reference_shift (o : String)
    (st : GccStyleDumper) (rdr : JVal) :
    write_reporting_descriptor_reference { st with dst_file := o ++ st.dst_file }
        rdr =
      prependOut o (write_reporting_descriptor_reference st rdr) := by
  unfold write_reporting_descriptor_reference
  cases ht : rdr.lookup? "toolComponent" with
  | none => simp [ht, prependOut]
  | some toolComponent =>
      simp only [ht]
      cases hn : toolComponent.lookup? "name" with
      | none => simp [hn, prependOut]
      | some name =>
          simp only [hn]
          by_cases hc : name = JVal.str "cwe"
          · cases hi : rdr.lookup? "id" with
            | none => simp [hc, hi, prependOut]
            | some i =>
                simp [hc, hi, prependOut, GccStyleDumper.write,
                  String.append_assoc]
          · simp [hc, prependOut]

theorem write_taxa_shift (rdrs : List JVal) (o : String)
    (st : GccStyleDumper) :
    write_taxa { st with dst_file := o ++ st.dst_file } rdrs =
      prependOut o (write_taxa st rdrs) := by
  induction rdrs generalizing st with
  | nil => simp [write_taxa, prependOut]
  | cons rdr rest ih =>
      unfold write_taxa
      rw [write_reporting_descriptor_reference_shift]
      cases hw : write_reporting_descriptor_reference st rdr with
      | error e => simp [prependOut]
      | ok st1 => simpa [prependOut] using ih st1

theorem write_thread_flow_location_shift (o : String) (st : GccStyleDumper)
    (idx : Nat) (threadFlowLocation : JVal) :
    write_thread_flow_location { st with dst_file := o ++ st.dst_file } idx
        threadFlowLocation =
      prependOut o (write_thread_flow_location st idx threadFlowLocation) := by
  unfold write_thread_flow_location
  cases hl : threadFlowLocation.lookup? "location" with
  | none => simp [hl, prependOut]
  | some location =>
      simp only [hl]
      rw [write_location_shift]
      cases hw : write_location st location with
      | error e => simp [prependOut]
      | ok st1 =>
          simp only [prependOut]
          cases hm : location.lookup? "message" with
          | none => simp [hm, prependOut, GccStyleDumper.write, String.append_assoc]
          | some message =>
              simp only [hm]
              cases hmt : message.lookup? "text" with
              | none => simp [hmt, prependOut, GccStyleDumper.write, String.append_assoc]
              | some text =>
                  try simp only [hmt]
                  cases text <;>
                    simp [prependOut, GccStyleDumper.write,
                      GccStyleDumper.writeln, String.append_assoc]

theorem write_thread_flow_steps_shift (locs : List JVal) (o : String)
    (st : GccStyleDumper) (idx : Nat) :
    write_thread_flow_steps { st with dst_file := o ++ st.dst_file } idx locs =
      prependOut o (write_thread_flow_steps st idx locs) := by
  induction locs generalizing st idx with
  | nil => simp [write_thread_flow_steps, prependOut]
  | cons loc rest ih =>
      unfold write_thread_flow_steps
      rw [write_thread_flow_location_shift]
      cases hw : write_thread_flow_location st idx loc with
      | error e => simp [prependOut]
      | ok st1 => simpa [prependOut] using ih st1 (idx + 1)

theorem write_thread_flow_shift (o : String) (st : GccStyleDumper)
    (threadFlow : JVal) :
    write_thread_flow { st with dst_file := o ++ st.dst_file } threadFlow =
      prependOut o (write_thread_flow st threadFlow) := by
  unfold write_thread_flow
  cases hl : threadFlow.lookup? "locations" with
  | none => simp [hl, prependOut]
  | some v =>
      try simp only [hl]
      cases v with
      | arr locs => exact write_thread_flow_steps_shift locs o st 0
      | str t => simp [prependOut]
      | num n => simp [prependOut]
      | obj f => simp [prependOut]

theorem write_code_flow_shift (o : String) (st : GccStyleDumper)
    (codeFlow : JVal) :
    write_code_flow { st with dst_file := o ++ st.dst_file } codeFlow =
      prependOut o (write_code_flow st codeFlow) := by
  unfold write_code_flow
  cases hl : codeFlow.lookup? "threadFlows" with
  | none => simp [hl, prependOut]
  | some threadFlows =>
      simp only [hl]
      cases hi : threadFlows.index? 0 with
      | none => simp [hi, prependOut]
      | some threadFlow =>
          simp only [hi]
          exact write_thread_flow_shift o st threadFlow

theorem dump_sarif_result_shift (o : String) (st : GccStyleDumper)
    (result : JVal) :
    dump_sarif_result { st with dst_file := o ++ st.dst_file } result =
      prependOut o (dump_sarif_result st result) := by
  unfold dump_sarif_result
  have stage1 :
      (match result.lookup? "locations" with
        | none => Except.ok { st with dst_file := o ++ st.dst_file }
        | some locations =>
            match locations.index? 0 with
            | none => Except.error { st with dst_file := o ++ st.dst_file }
            | some loc =>
                write_location { st with dst_file := o ++ st.dst_file } loc) =
      prependOut o
        (match result.lookup? "locations" with
          | none => Except.ok st
          | some locations =>
              match locations.index? 0 with
              | none => Except.error st
              | some loc => write_location st loc) := by
    cases hL : result.lookup? "locations" with
    | none => simp [hL, prependOut]
    | some locations =>
        try simp only [hL]
        cases hI : locations.index? 0 with
        | none => simp [hI, prependOut]
        | some loc => simp [hI, write_location_shift]
  rw [stage1]
  cases h1 : (match result.lookup? "locations" with
    | none => Except.ok st
    | some locations =>
        match locations.index? 0 with
        | none => Except.error st
        | some loc => write_location st loc) with
  | error e => simp [prependOut]
  | ok st1 =>
      simp only [prependOut]
      have stage2 :
          (match result.lookup? "level" with
            | none => ({ st1 with dst_file := o ++ st1.dst_file } : GccStyleDumper)
            | some level =>
                ({ st1 with dst_file := o ++ st1.dst_file } : GccStyleDumper).write
                  (level.pyStr ++ ": ")) =
          { (match result.lookup? "level" with
              | none => st1
              | some level => st1.write (level.pyStr ++ ": ")) with
            dst_file := o ++ (match result.lookup? "level" with
              | none => st1
              | some level => st1.write (level.pyStr ++ ": ")).dst_file } := by
        cases result.lookup? "level" <;>
          simp [GccStyleDumper.write, String.append_assoc]
      rw [stage2]
      set st2 : GccStyleDumper :=
        (match result.lookup? "level" with
          | none => st1
          | some level => st1.write (level.pyStr ++ ": ")) with hst2
      cases hM : result.lookup? "message" with
      | none => simp [prependOut]
      | some message =>
          simp only []
          cases hT : message.lookup? "text" with
          | none => simp [prependOut]
          | some text =>
              simp only []
              have stage3 :
                  (({ st2 with dst_file := o ++ st2.dst_file } : GccStyleDumper).write
                      text.pyStr) =
                  { (st2.write text.pyStr) with
                    dst_file := o ++ (st2.write text.pyStr).dst_file } := by
                simp [GccStyleDumper.write, String.append_assoc]
              rw [stage3]
              set st3 : GccStyleDumper := st2.write text.pyStr with hst3
              have stage4 :
                  (match result.lookup? "taxa" with
                    | none =>
                        Except.ok
                          ({ st3 with dst_file := o ++ st3.dst_file } : GccStyleDumper)
                    | some (.arr rdrs) =>
                        write_taxa
                          { st3 with dst_file := o ++ st3.dst_file } rdrs
                    | some _ =>
                        Except.error
                          ({ st3 with dst_file := o ++ st3.dst_file } : GccStyleDumper)) =
                  prependOut o
                    (match result.lookup? "taxa" with
                      | none => Except.ok st3
                      | some (.arr rdrs) => write_taxa st3 rdrs
                      | some _ => Except.error st3) := by
                cases hTx : result.lookup? "taxa" with
                | none => simp [prependOut]
                | some v =>
                    cases v with
                    | arr rdrs => simp [write_taxa_shift]
                    | str t => simp [prependOut]
                    | num n => simp [prependOut]
                    | obj f => simp [prependOut]
              rw [stage4]
              cases h4 : (match result.lookup? "taxa" with
                | none => Except.ok st3
                | some (.arr rdrs) => write_taxa st3 rdrs
                | some _ => Except.error st3) with
              | error e => simp [prependOut]
              | ok st4 =>
                  simp only [prependOut]
                  have stage5 :
                      ((match result.lookup? "ruleId" with
                        | none =>
                            ({ st4 with dst_file := o ++ st4.dst_file } : GccStyleDumper)
                        | some ruleId =>
                            ({ st4 with dst_file := o ++ st4.dst_file } : GccStyleDumper).write
                              (" [" ++ ruleId.pyStr ++ "]"))).writeln =
                      { ((match result.lookup? "ruleId" with
                          | none => st4
                          | some ruleId =>
                              st4.write (" [" ++ ruleId.pyStr ++ "]"))).writeln with
                        dst_file := o ++ ((match result.lookup? "ruleId" with
                          | none => st4
                          | some ruleId =>
                              st4.write (" [" ++ ruleId.pyStr ++ "]"))).writeln.dst_file } := by
                    cases result.lookup? "ruleId" <;>
                      simp [GccStyleDumper.write, GccStyleDumper.writeln,
                        String.append_assoc]
                  rw [stage5]
                  set st6 : GccStyleDumper :=
                    ((match result.lookup? "ruleId" with
                      | none => st4
                      | some ruleId =>
                          st4.write (" [" ++ ruleId.pyStr ++ "]"))).writeln with hst6
                  cases hCf : result.lookup? "codeFlows" with
                  | none => simp [prependOut]
                  | some codeFlows =>
                      simp only []
                      cases hI2 : codeFlows.index? 0 with
                      | none => simp [prependOut]
                      | some codeFlow =>
                          simp only []
                          exact write_code_flow_shift o st6 codeFlow

theorem dump_sarif_file_shift (results : List JVal) (o : String)
    (st : GccStyleDumper) :
    dump_sarif_file { st with dst_file := o ++ st.dst_file } results =
      prependOut o (dump_sarif_file st results) := by
  induction results generalizing st with
  | nil => simp [dump_sarif_file, prependOut]
  | cons result rest ih =>
      unfold dump_sarif_file
      rw [dump_sarif_result_shift]
      cases hw : dump_sarif_result st result with
      | error e => simp [prependOut]
      | ok st1 => simpa [prependOut] using ih st1

/-- Any renderer satisfying the shift law only ever appends to the sink. -/
theorem shift_appends (g : GccStyleDumper → DumpResult)
    (hshift : ∀ (o : String) (st : GccStyleDumper),
      g { st with dst_file := o ++ st.dst_file } = prependOut o (g st))
    (st : GccStyleDumper) :
    ∃ t, (outState (g st)).dst_file = st.dst_file ++ t := by
  obtain ⟨bp, d, l⟩ := st
  have h := hshift d ⟨bp, "", l⟩
  simp only [String.append_empty] at h
  rw [h]
  cases g ⟨bp, "", l⟩ with
  | ok s => exact ⟨s.dst_file, by simp [prependOut, outState]⟩
  | error s => exact ⟨s.dst_file, by simp [prependOut, outState]⟩

/-- The spec's end-to-end scenario result: `level="error"`,
`message.text="null pointer dereference"`, one location at
`uri="foo.c"`, `startLine=42`, `startColumn=5`, `ruleId="null-deref"`. -/
def c1Result : JVal := .obj [
  ("ruleId", .str "null-deref"),
  ("level", .str "error"),
  ("message", .obj [("text", .str "null pointer dereference")]),
  ("locations", .arr [.obj [
    ("physicalLocation", .obj [
      ("artifactLocation", .obj [("uri", .str "foo.c")]),
      ("region", .obj [("startLine", .num 42), ("startColumn", .num 5)])])]])]

/-- C1: a result with `level="error"`, `message.text="null pointer
dereference"`, a first location with `uri="foo.c"`, `startLine=42`,
`startColumn=5`, and `ruleId="null-deref"` renders as exactly the single
line `<base-path>/foo.c:42:5: error: null pointer dereference
[null-deref]` followed by one newline, with the parts emitted in the fixed
order (location prefix, level, message, taxa, ruleId, newline, code-flow
block — the latter two empty here); the URI is prefixed by the document's
base directory. -/
theorem C1_end_to_end_render (bp : String) :
    dump_sarif_result (mkGccStyleDumper bp) c1Result =
      .ok { base_path := bp,
            dst_file := pathJoin bp "foo.c" ++
              ":42:5: error: null pointer dereference [null-deref]\n",
            last_logical_location := none } ∧
    (¬ bp = "" → endsWithSep bp = false →
      pathJoin bp "foo.c" = bp ++ "/foo.c") := by
  constructor
  · have h42 : toString (42 : Int) = "42" := rfl
    have h5 : toString (5 : Int) = "5" := rfl
    simp [h42, h5, dump_sarif_result, c1Result, mkGccStyleDumper,
      write_location, write_physical_location, JVal.lookup?, JVal.index?,
      JVal.hasKey, JVal.truthy, JVal.pyStr, GccStyleDumper.write,
      GccStyleDumper.writeln, List.lookup, String.append_assoc,
      String.empty_append]
  · intro h1 h2
    have hs : isAbsolutePath "foo.c" = false := rfl
    simp [pathJoin, hs, h1, h2, String.append_assoc]

/-- Witness for C1 at the concrete base path `"base"`. -/
theorem C1_end_to_end_render_witness :
    dump_sarif_result (mkGccStyleDumper "base") c1Result =
      .ok { base_path := "base",
            dst_file := "base/foo.c:42:5: error: null pointer dereference [null-deref]\n",
            last_logical_location := none } ∧
    pathJoin "base" "foo.c" = "base" ++ "/foo.c" := by
  have h := C1_end_to_end_render "base"
  have h2 := h.2 (by decide) (by rfl)
  refine ⟨?_, h2⟩
  rw [h.1, h2]
  rfl

/-- C2: after a result whose first location's first logical location is
`ll` is rendered (with no code flow adding further encounters), the
Formatter's memo holds `ll`; rendering the value-equal `ll` again (as the
next result's first logical location does) is a strict no-op — no
`In function` header line, no state change — while a different logical
location of kind `"function"` emits the header line again. -/
theorem C2_function_header_dedup (st0 st1 : GccStyleDumper)
    (r1 locs loc lls ll ll2 fqn : JVal)
    (h1 : dump_sarif_result st0 r1 = .ok st1)
    (hlocs : r1.lookup? "locations" = some locs)
    (hloc0 : locs.index? 0 = some loc)
    (hlls : loc.lookup? "logicalLocations" = some lls)
    (htr : lls.truthy = true)
    (hll0 : lls.index? 0 = some ll)
    (hcf : r1.lookup? "codeFlows" = none) :
    st1.last_logical_location = some ll ∧
    write_logical_location st1 ll = .ok st1 ∧
    (¬ ll2 = ll → ll2.lookup? "kind" = some (.str "function") →
      ll2.lookup? "fullyQualifiedName" = some fqn →
      write_logical_location st1 ll2 =
        .ok { st1 with
              dst_file :=
                st1.dst_file ++ ("In function \x27" ++ fqn.pyStr ++ "\x27:") ++ "\n",
              last_logical_location := some ll2 }) := by
  have hstate := dump_sarif_result_state st0 r1 st1 h1
  have hres : resultLogicals r1 = [ll] := by
    unfold resultLogicals locLogicals
    simp [hlocs, hloc0, hlls, htr, hll0, hcf]
  have hlast : st1.last_logical_location = some ll := by
    rw [hstate.1, hres]
    rfl
  refine ⟨hlast, ?_, ?_⟩
  · unfold write_logical_location
    simp [hlast]
  · intro hne hk hf
    unfold write_logical_location
    have hcond : ¬ (some ll2 = st1.last_logical_location) := by
      rw [hlast]
      simp [hne]
    simp [hcond, hk, hf, GccStyleDumper.write, GccStyleDumper.writeln]

/-- A logical location of kind `"function"` named `main`. -/
def c2LL : JVal :=
  .obj [("kind", .str "function"), ("fullyQualifiedName", .str "main")]

/-- A different logical location of kind `"function"` named `other`. -/
def c2LL2 : JVal :=
  .obj [("kind", .str "function"), ("fullyQualifiedName", .str "other")]

/-- A result located in function `main` with message `m` and no code flow. -/
def c2Result : JVal := .obj [
  ("locations", .arr [.obj [("logicalLocations", .arr [c2LL])]]),
  ("message", .obj [("text", .str "m")])]

/-- Witness for C2: after rendering `c2Result`, re-rendering the equal
logical location is a no-op and the different function `other` re-emits
its header. -/
theorem C2_function_header_dedup_witness :
    write_logical_location
        ⟨"b", "In function \x27main\x27:\nm\n", some c2LL⟩ c2LL =
      .ok ⟨"b", "In function \x27main\x27:\nm\n", some c2LL⟩ ∧
    write_logical_location
        ⟨"b", "In function \x27main\x27:\nm\n", some c2LL⟩ c2LL2 =
      .ok ⟨"b",
           "In function \x27main\x27:\nm\n" ++
             ("In function \x27" ++ (JVal.str "other").pyStr ++ "\x27:") ++ "\n",
           some c2LL2⟩ := by
  have h := C2_function_header_dedup (mkGccStyleDumper "b")
    ⟨"b", "In function \x27main\x27:\nm\n", some c2LL⟩
    c2Result (.arr [.obj [("logicalLocations", .arr [c2LL])]])
    (.obj [("logicalLocations", .arr [c2LL])]) (.arr [c2LL]) c2LL c2LL2
    (.str "other") (by rfl) rfl rfl rfl rfl rfl rfl
  exact ⟨h.2.1, h.2.2 (by decide) rfl rfl⟩

/-- C3: the rendering engine's only mutable state is the
`last_logical_location` memo: it starts unset on a fresh dumper, and after
a successful render it equals the fold of all logical-location encounters
of the document — result locations and code-flow trace-step locations
alike, in document-traversal order, regardless of their `kind` — where
each encounter leaves the slot holding the encountered value (a duplicate
leaves it unchanged, a new value overwrites it).  No other per-instance
state changes: the base path is preserved (the sink only ever grows, see
the shift lemmas). -/
theorem C3_last_logical_location_state (bp : String)
    (st s : GccStyleDumper) (results : List JVal)
    (h : dump_sarif_file st results = .ok s) :
    (mkGccStyleDumper bp).last_logical_location = none ∧
    s.last_logical_location =
      updLast st.last_logical_location (fileLogicals results) ∧
    s.base_path = st.base_path := by
  have h1 := dump_sarif_file_state results st s h
  exact ⟨rfl, h1.1, h1.2⟩

/-- A logical location of kind `"function"`. -/
def c3LL : JVal :=
  .obj [("kind", .str "function"), ("fullyQualifiedName", .str "f")]

/-- A logical location whose kind is not `"function"`: rendered silently
but still recorded in the memo. -/
def c3LL2 : JVal :=
  .obj [("kind", .str "module"), ("fullyQualifiedName", .str "mod")]

/-- A result located in function `f`. -/
def c3ResultA : JVal := .obj [
  ("locations", .arr [.obj [("logicalLocations", .arr [c3LL])]]),
  ("message", .obj [("text", .str "a")])]

/-- A trace step whose location carries the non-function logical
location. -/
def c3Step : JVal := .obj [("location", .obj [
  ("logicalLocations", .arr [c3LL2]),
  ("message", .obj [("text", .str "s")])])]

def c3TF : JVal := .obj [("locations", .arr [c3Step])]

def c3CF : JVal := .obj [("threadFlows", .arr [c3TF])]

/-- A result whose only logical-location encounter sits in a trace step. -/
def c3ResultB : JVal := .obj [
  ("message", .obj [("text", .str "b")]),
  ("codeFlows", .arr [c3CF])]

/-- Witness for C3: a fresh dumper starts unset, and over a document whose
second encounter is a non-function-kind trace-step logical location, the
memo ends holding that value. -/
theorem C3_last_logical_location_state_witness :
    (mkGccStyleDumper "b").last_logical_location = none ∧
    (⟨"b", "In function \x27f\x27:\na\nb\n(1) s\n", some c3LL2⟩ :
        GccStyleDumper).last_logical_location =
      updLast (mkGccStyleDumper "b").last_logical_location
        (fileLogicals [c3ResultA, c3ResultB]) ∧
    (⟨"b", "In function \x27f\x27:\na\nb\n(1) s\n", some c3LL2⟩ :
        GccStyleDumper).base_path = (mkGccStyleDumper "b").base_path :=
  C3_last_logical_location_state "b" (mkGccStyleDumper "b")
    ⟨"b", "In function \x27f\x27:\na\nb\n(1) s\n", some c3LL2⟩
    [c3ResultA, c3ResultB] (by rfl)

/-- A trace step carrying only its own message text. -/
def c4Step (msg : String) : JVal :=
  .obj [("location", .obj [("message", .obj [("text", .str msg)])])]

/-- A thread flow of three steps with messages `m1`, `m2`, `m3`. -/
def c4TF (m1 m2 m3 : String) : JVal :=
  .obj [("locations", .arr [c4Step m1, c4Step m2, c4Step m3])]

/-- A result with message `m` and one code flow holding one thread flow of
three steps with messages `m1`, `m2`, `m3`. -/
def c4Result (m m1 m2 m3 : String) : JVal := .obj [
  ("message", .obj [("text", .str m)]),
  ("codeFlows", .arr [.obj [("threadFlows", .arr [c4TF m1 m2 m3])]])]

/-- C4: only `codeFlows[0]` matters to a result render (two results
agreeing everywhere except past the first code flow render identically),
`write_code_flow` renders only the first thread flow, and a three-step
thread flow yields exactly three lines `(1) `/`(2) `/`(3) ` after the
result's terminated main line, each carrying the step's own
`location.message.text` rather than the result's message. -/
theorem C4_code_flow_truncation (st : GccStyleDumper) (r r' c tf : JVal)
    (cs cs' tfs : List JVal) (m m1 m2 m3 : String)
    (hagree : ∀ k, ¬ k = "codeFlows" → r.lookup? k = r'.lookup? k)
    (hr : r.lookup? "codeFlows" = some (.arr (c :: cs)))
    (hr' : r'.lookup? "codeFlows" = some (.arr (c :: cs'))) :
    dump_sarif_result st r = dump_sarif_result st r' ∧
    write_code_flow st (.obj [("threadFlows", .arr (tf :: tfs))]) =
      write_thread_flow st tf ∧
    dump_sarif_result st (c4Result m m1 m2 m3) =
      .ok { st with dst_file :=
        st.dst_file ++ m ++ "\n" ++ "(1) " ++ m1 ++ "\n" ++ "(2) " ++ m2 ++
          "\n" ++ "(3) " ++ m3 ++ "\n" } := by
  refine ⟨?_, ?_, ?_⟩
  · unfold dump_sarif_result
    rw [hagree "locations" (by decide), hagree "level" (by decide),
      hagree "message" (by decide), hagree "taxa" (by decide),
      hagree "ruleId" (by decide), hr, hr']
    simp [JVal.index?]
  · simp [write_code_flow, JVal.lookup?, List.lookup, JVal.index?]
  · have hone : ("(" ++ toString (0 + 1) ++ ") ") = "(1) " := rfl
    have htwo : ("(" ++ toString (1 + 1) ++ ") ") = "(2) " := rfl
    have hthree : ("(" ++ toString (2 + 1) ++ ") ") = "(3) " := rfl
    simp [dump_sarif_result, c4Result, c4TF, c4Step, write_code_flow,
      write_thread_flow, write_thread_flow_steps, write_thread_flow_location,
      write_location, JVal.lookup?, List.lookup, JVal.index?, JVal.pyStr,
      GccStyleDumper.write, GccStyleDumper.writeln, hone, htwo, hthree,
      String.append_assoc]

def c4CFa : JVal := .obj [("threadFlows", .arr [c4TF "s1" "s2" "s3"])]

def c4CFb : JVal := .obj [("dropped", .str "yes")]

/-- A result with two code flows: only the first is rendered. -/
def c4rA : JVal := .obj [
  ("message", .obj [("text", .str "x")]),
  ("codeFlows", .arr [c4CFa, c4CFb])]

/-- The same result with the second code flow removed. -/
def c4rB : JVal := .obj [
  ("message", .obj [("text", .str "x")]),
  ("codeFlows", .arr [c4CFa])]

/-- Witness for C4 with concrete results, flows and step messages. -/
theorem C4_code_flow_truncation_witness :
    dump_sarif_result (mkGccStyleDumper "w") c4rA =
      dump_sarif_result (mkGccStyleDumper "w") c4rB ∧
    write_code_flow (mkGccStyleDumper "w")
        (.obj [("threadFlows", .arr (c4TF "a" "b" "c" :: [c4CFb]))]) =
      write_thread_flow (mkGccStyleDumper "w") (c4TF "a" "b" "c") ∧
    dump_sarif_result (mkGccStyleDumper "w") (c4Result "x" "s1" "s2" "s3") =
      .ok { mkGccStyleDumper "w" with dst_file :=
        (mkGccStyleDumper "w").dst_file ++ "x" ++ "\n" ++ "(1) " ++ "s1" ++
          "\n" ++ "(2) " ++ "s2" ++ "\n" ++ "(3) " ++ "s3" ++ "\n" } := by
  refine C4_code_flow_truncation (mkGccStyleDumper "w") c4rA c4rB c4CFa
    (c4TF "a" "b" "c") [c4CFb] [] [c4CFb] "x" "s1" "s2" "s3" ?_ rfl rfl
  intro k hk
  by_cases hm : k = "message"
  · subst hm
    rfl
  · have h1 : (k == "message") = false := beq_eq_false_iff_ne.mpr hm
    have h2 : (k == "codeFlows") = false := beq_eq_false_iff_ne.mpr hk
    simp [c4rA, c4rB, JVal.lookup?, List.lookup, h1, h2]

/-- A result without `message.text` always raises, whatever else it
contains. -/
theorem dump_sarif_result_no_message (st : GccStyleDumper) (r : JVal)
    (hmsg : Option.bind (r.lookup? "message") (fun m => m.lookup? "text") =
      none) :
    ∃ e, dump_sarif_result st r = .error e := by
  unfold dump_sarif_result
  cases hL : r.lookup? "locations" with
  | none =>
      simp only [hL]
      cases hM : r.lookup? "message" with
      | none =>
          simp only [hM]
          exact ⟨_, rfl⟩
      | some m =>
          have hT : m.lookup? "text" = none := by simpa [hM] using hmsg
          simp only [hM, hT]
          exact ⟨_, rfl⟩
  | some locs =>
      simp only [hL]
      cases hI : locs.index? 0 with
      | none =>
          simp only [hI]
          exact ⟨st, rfl⟩
      | some loc =>
          simp only [hI]
          cases hW : write_location st loc with
          | error e =>
              simp only [hW]
              exact ⟨e, rfl⟩
          | ok st1 =>
              simp only [hW]
              cases hM : r.lookup? "message" with
              | none =>
                  simp only [hM]
                  exact ⟨_, rfl⟩
              | some m =>
                  have hT : m.lookup? "text" = none := by simpa [hM] using hmsg
                  simp only [hM, hT]
                  exact ⟨_, rfl⟩

/-- An error while rendering a document's first remaining result aborts
the whole document run with that very error: later results are not
processed. -/
theorem dump_sarif_file_cons_error (st e : GccStyleDumper) (r : JVal)
    (rest : List JVal) (h : dump_sarif_result st r = .error e) :
    dump_sarif_file st (r :: rest) = .error e := by
  unfold dump_sarif_file
  simp [h]

/-- C5: a result lacking `message.text`, or a physical location lacking
`startLine`, raises an unhandled structural-access error that the engine
neither catches nor recovers from: the error propagates out of the render,
the document's subsequent results are not processed, and the output
already written before the failure is still in the sink (the error state
only extends it). -/
theorem C5_missing_required_field_error (st : GccStyleDumper)
    (r pl region : JVal) (rest : List JVal)
    (hmsg : Option.bind (r.lookup? "message") (fun m => m.lookup? "text") =
      none)
    (hreg : pl.lookup? "region" = some region)
    (hsl : region.lookup? "startLine" = none) :
    (∃ e, dump_sarif_result st r = .error e ∧
      dump_sarif_file st (r :: rest) = .error e ∧
      ∃ t, e.dst_file = st.dst_file ++ t) ∧
    (∃ e2, write_physical_location st pl = .error e2 ∧
      ∃ t2, e2.dst_file = st.dst_file ++ t2) := by
  constructor
  · obtain ⟨e, he⟩ := dump_sarif_result_no_message st r hmsg
    refine ⟨e, he, dump_sarif_file_cons_error st e r rest he, ?_⟩
    have hp := shift_appends (fun s => dump_sarif_result s r)
      (fun o s => dump_sarif_result_shift o s r) st
    rw [he] at hp
    simpa [outState] using hp
  · unfold write_physical_location
    cases ha : pl.lookup? "artifactLocation" with
    | none =>
        exact ⟨st, rfl, "", (String.append_empty _).symm⟩
    | some al =>
        try simp only [ha]
        cases hu : al.lookup? "uri" with
        | none =>
            refine ⟨st, ?_, "", (String.append_empty _).symm⟩
            simp [hu]
        | some fn =>
            refine ⟨st, ?_, "", (String.append_empty _).symm⟩
            simp [hu, hreg, hsl]

/-- A result carrying only a level, hence no `message.text`. -/
def c5Result : JVal := .obj [("level", .str "warning")]

/-- A physical location with a region lacking `startLine`. -/
def c5Phys : JVal := .obj [
  ("artifactLocation", .obj [("uri", .str "u")]),
  ("region", .obj [("startColumn", .num 3)])]

/-- Witness for C5 at concrete malformed inputs. -/
theorem C5_missing_required_field_error_witness :
    (∃ e, dump_sarif_result (mkGccStyleDumper "b") c5Result = .error e ∧
      dump_sarif_file (mkGccStyleDumper "b") [c5Result, c5Result] = .error e ∧
      ∃ t, e.dst_file = (mkGccStyleDumper "b").dst_file ++ t) ∧
    (∃ e2, write_physical_location (mkGccStyleDumper "b") c5Phys = .error e2 ∧
      ∃ t2, e2.dst_file = (mkGccStyleDumper "b").dst_file ++ t2) :=
  C5_missing_required_field_error (mkGccStyleDumper "b") c5Result c5Phys
    (.obj [("startColumn", .num 3)]) [c5Result] rfl rfl rfl

/-- C6: for a taxonomy reference carrying a tool component name and an id,
the annotation `" [CWE-<id>]"` (no newline, appended to the current line)
is written iff the tool component name is the literal string `"cwe"`; a
reference naming any other tool component writes nothing, as does one with
no tool component at all. -/
theorem C6_cwe_taxa_annotation (st : GccStyleDumper) (rdr rdr2 tc name i : JVal)
    (htc : rdr.lookup? "toolComponent" = some tc)
    (hname : tc.lookup? "name" = some name)
    (hid : rdr.lookup? "id" = some i) :
    (write_reporting_descriptor_reference st rdr =
        .ok (st.write (" [CWE-" ++ i.pyStr ++ "]")) ↔ name = .str "cwe") ∧
    (¬ name = .str "cwe" →
      write_reporting_descriptor_reference st rdr = .ok st) ∧
    (rdr2.lookup? "toolComponent" = none →
      write_reporting_descriptor_reference st rdr2 = .ok st) := by
  have hkey : st.write (" [CWE-" ++ i.pyStr ++ "]") ≠ st := by
    intro hcontra
    have h1 : st.dst_file ++ (" [CWE-" ++ i.pyStr ++ "]") = st.dst_file :=
      congrArg GccStyleDumper.dst_file hcontra
    have h2 := congrArg String.length h1
    rw [String.length_append] at h2
    have h3 : (" [CWE-" ++ i.pyStr ++ "]").length = 0 := by omega
    rw [String.length_append, String.length_append] at h3
    have h4 : (" [CWE-" : String).length = 6 := rfl
    have h5 : ("]" : String).length = 1 := rfl
    omega
  refine ⟨⟨?_, ?_⟩, ?_, ?_⟩
  · intro h
    by_contra hcwe
    have hok : write_reporting_descriptor_reference st rdr = .ok st := by
      unfold write_reporting_descriptor_reference
      simp [htc, hname, hcwe]
    rw [hok] at h
    have : st = st.write (" [CWE-" ++ i.pyStr ++ "]") := by injection h
    exact hkey this.symm
  · intro h
    unfold write_reporting_descriptor_reference
    simp [htc, hname, h, hid]
  · intro h
    unfold write_reporting_descriptor_reference
    simp [htc, hname, h]
  · intro h
    unfold write_reporting_descriptor_reference
    simp [h]

/-- A reference into the CWE catalog, id 120. -/
def c6Cwe : JVal :=
  .obj [("toolComponent", .obj [("name", .str "cwe")]), ("id", .str "120")]

/-- A reference into a different catalog. -/
def c6Other : JVal :=
  .obj [("toolComponent", .obj [("name", .str "misra")]), ("id", .str "1.1")]

/-- A reference with no tool component. -/
def c6NoTc : JVal := .obj [("id", .str "5")]

/-- Witness for C6: the CWE reference writes its annotation, the other
catalog and the component-free reference write nothing. -/
theorem C6_cwe_taxa_annotation_witness :
    write_reporting_descriptor_reference (mkGccStyleDumper "b") c6Cwe =
      .ok ((mkGccStyleDumper "b").write
        (" [CWE-" ++ (JVal.str "120").pyStr ++ "]")) ∧
    write_reporting_descriptor_reference (mkGccStyleDumper "b") c6Other =
      .ok (mkGccStyleDumper "b") ∧
    write_reporting_descriptor_reference (mkGccStyleDumper "b") c6NoTc =
      .ok (mkGccStyleDumper "b") := by
  have h1 := C6_cwe_taxa_annotation (mkGccStyleDumper "b") c6Cwe c6NoTc
    (.obj [("name", .str "cwe")]) (.str "cwe") (.str "120") rfl rfl rfl
  have h2 := C6_cwe_taxa_annotation (mkGccStyleDumper "b") c6Other c6NoTc
    (.obj [("name", .str "misra")]) (.str "misra") (.str "1.1") rfl rfl rfl
  exact ⟨h1.1.mpr rfl, h2.2.1 (by decide), h1.2.2 rfl⟩

/-- C7: a location whose `logicalLocations` key maps to an empty sequence
renders exactly like one without the key (given the same
`physicalLocation`): no logical-location output, no error from that part,
and the memo is untouched whatever the physical part does; with no
physical location either, the render is a complete no-op. -/
theorem C7_empty_logical_locations (st : GccStyleDumper) (loc loc2 : JVal)
    (h : loc.lookup? "logicalLocations" = some (.arr []))
    (h2 : loc2.lookup? "logicalLocations" = none)
    (hsame : loc.lookup? "physicalLocation" = loc2.lookup? "physicalLocation") :
    write_location st loc = write_location st loc2 ∧
    (outState (write_location st loc)).last_logical_location =
      st.last_logical_location ∧
    (loc.lookup? "physicalLocation" = none →
      write_location st loc = .ok st) := by
  have htr : (JVal.arr []).truthy = false := rfl
  refine ⟨?_, ?_, ?_⟩
  · unfold write_location
    rw [h, h2, hsame]
    simp [htr]
  · unfold write_location
    rw [h]
    simp only [htr, Bool.false_eq_true, if_false]
    cases hp : loc.lookup? "physicalLocation" with
    | none => simp [outState]
    | some pl => exact (write_physical_location_state st pl).1
  · intro hp
    unfold write_location
    rw [h, hp]
    simp [htr]

/-- Witness for C7: the empty-sequence location and the key-free location
render identically as a no-op on a fresh dumper. -/
theorem C7_empty_logical_locations_witness :
    write_location (mkGccStyleDumper "b")
        (.obj [("logicalLocations", JVal.arr [])]) =
      write_location (mkGccStyleDumper "b") (.obj []) ∧
    (outState (write_location (mkGccStyleDumper "b")
        (.obj [("logicalLocations", JVal.arr [])]))).last_logical_location =
      (mkGccStyleDumper "b").last_logical_location ∧
    write_location (mkGccStyleDumper "b")
        (.obj [("logicalLocations", JVal.arr [])]) =
      .ok (mkGccStyleDumper "b") := by
  have h := C7_empty_logical_locations (mkGccStyleDumper "b")
    (.obj [("logicalLocations", .arr [])]) (.obj []) rfl rfl rfl
  exact ⟨h.1, h.2.1, h.2.2 rfl⟩

/-- C8: rendering is a pure function of the document, the base path and
the per-instance state: two independently constructed Formatters over the
same document produce the identical outcome, and a render started from
any prior sink content produces exactly the same bytes, appended after
that content (no hidden global state feeds back into the output). -/
theorem C8_deterministic_render (bp o : String) (doc : List JVal)
    (l : Option JVal) :
    dump_sarif_file (mkGccStyleDumper bp) doc =
      dump_sarif_file (mkGccStyleDumper bp) doc ∧
    dump_sarif_file ⟨bp, o, l⟩ doc =
      prependOut o (dump_sarif_file ⟨bp, "", l⟩ doc) := by
  refine ⟨rfl, ?_⟩
  have h := dump_sarif_file_shift doc o ⟨bp, "", l⟩
  simpa [String.append_empty] using h

/-- A successful result render implies the first code flow existed
whenever the `codeFlows` key was present. -/
theorem dump_sarif_result_ok_codeflows (st : GccStyleDumper) (r : JVal)
    (s : GccStyleDumper) (hok : dump_sarif_result st r = .ok s)
    (cfs : JVal) (hcf : r.lookup? "codeFlows" = some cfs) :
    ∃ cf, cfs.index? 0 = some cf := by
  unfold dump_sarif_result at hok
  simp only [hcf] at hok
  cases hI2 : cfs.index? 0 with
  | some cf => exact ⟨cf, rfl⟩
  | none =>
      simp only [hI2] at hok
      repeat' split at hok
      all_goals exact Except.noConfusion hok

/-- C9: unlike `logicalLocations`, present-but-empty is not treated as
absent for `locations` and `codeFlows`: an empty `locations` sequence
makes the result render raise at once, an empty `codeFlows` sequence makes
it raise (whatever else happens first), and a code flow with absent or
empty `threadFlows` makes `write_code_flow` raise. -/
theorem C9_empty_sequences_raise (st : GccStyleDumper) (r r2 cf : JVal)
    (h1 : r.lookup? "locations" = some (.arr []))
    (h2 : r2.lookup? "codeFlows" = some (.arr []))
    (h3 : cf.lookup? "threadFlows" = none ∨
      cf.lookup? "threadFlows" = some (.arr [])) :
    (∃ e, dump_sarif_result st r = .error e) ∧
    (∃ e, dump_sarif_result st r2 = .error e) ∧
    (∃ e, write_code_flow st cf = .error e) := by
  refine ⟨?_, ?_, ?_⟩
  · unfold dump_sarif_result
    simp only [h1]
    exact ⟨st, rfl⟩
  · cases hres : dump_sarif_result st r2 with
    | error e => exact ⟨e, rfl⟩
    | ok s =>
        obtain ⟨cf0, hcf0⟩ :=
          dump_sarif_result_ok_codeflows st r2 s hres _ h2
        simp [JVal.index?] at hcf0
  · rcases h3 with h3 | h3
    · refine ⟨st, ?_⟩
      unfold write_code_flow
      simp [h3]
    · refine ⟨st, ?_⟩
      unfold write_code_flow
      simp [h3, JVal.index?]

/-- A result with a present-but-empty locations sequence. -/
def c9R1 : JVal := .obj [("locations", .arr [])]

/-- A well-formed result except for a present-but-empty codeFlows
sequence. -/
def c9R2 : JVal := .obj [
  ("message", .obj [("text", .str "m")]),
  ("codeFlows", .arr [])]

/-- A code flow with an empty threadFlows sequence. -/
def c9CF : JVal := .obj [("threadFlows", .arr [])]

/-- Witness for C9 at concrete empty-sequence inputs. -/
theorem C9_empty_sequences_raise_witness :
    (∃ e, dump_sarif_result (mkGccStyleDumper "b") c9R1 = .error e) ∧
    (∃ e, dump_sarif_result (mkGccStyleDumper "b") c9R2 = .error e) ∧
    (∃ e, write_code_flow (mkGccStyleDumper "b") c9CF = .error e) :=
  C9_empty_sequences_raise (mkGccStyleDumper "b") c9R1 c9R2 c9CF
    rfl rfl (Or.inr rfl)

/-- C10: `write_physical_location` reads `artifactLocation` (and its
`uri`) and `region` unconditionally — a physical location lacking
`artifactLocation` or lacking `region` raises even though the spec's
required fields may be satisfied — while `startColumn` alone is guarded by
a presence check, so its absence still renders successfully. -/
theorem C10_unconditional_physical_accesses (st : GccStyleDumper)
    (pl pl2 pl3 al region : JVal) (u : String) (n : Int)
    (h1 : pl.lookup? "artifactLocation" = none)
    (h2 : pl2.lookup? "region" = none)
    (h3 : pl3.lookup? "artifactLocation" = some al)
    (h4 : al.lookup? "uri" = some (.str u))
    (h5 : pl3.lookup? "region" = some region)
    (h6 : region.lookup? "startLine" = some (.num n))
    (h7 : region.lookup? "startColumn" = none) :
    write_physical_location st pl = .error st ∧
    (∃ e, write_physical_location st pl2 = .error e) ∧
    write_physical_location st pl3 =
      .ok ((st.write (pathJoin st.base_path u ++ ":" ++ toString n ++ ":")).write
        " ") := by
  refine ⟨?_, ?_, ?_⟩
  · unfold write_physical_location
    simp [h1]
  · unfold write_physical_location
    cases ha : pl2.lookup? "artifactLocation" with
    | none => exact ⟨st, rfl⟩
    | some al2 =>
        try simp only [ha]
        cases hu : al2.lookup? "uri" with
        | none =>
            refine ⟨st, ?_⟩
            simp [hu]
        | some fn =>
            refine ⟨st, ?_⟩
            simp [hu, h2]
  · unfold write_physical_location
    simp [h3, h4, h5, h6, h7, JVal.hasKey]

/-- A physical location with no artifact location. -/
def c10P1 : JVal := .obj [("region", .obj [("startLine", .num 1)])]

/-- A physical location with no region. -/
def c10P2 : JVal := .obj [("artifactLocation", .obj [("uri", .str "f.c")])]

/-- A physical location with uri and startLine but no startColumn. -/
def c10P3 : JVal := .obj [
  ("artifactLocation", .obj [("uri", .str "f.c")]),
  ("region", .obj [("startLine", .num 7)])]

/-- Witness for C10 at the three concrete physical locations. -/
theorem C10_unconditional_physical_accesses_witness :
    write_physical_location (mkGccStyleDumper "b") c10P1 =
      .error (mkGccStyleDumper "b") ∧
    (∃ e, write_physical_location (mkGccStyleDumper "b") c10P2 = .error e) ∧
    write_physical_location (mkGccStyleDumper "b") c10P3 =
      .ok (((mkGccStyleDumper "b").write
        (pathJoin (mkGccStyleDumper "b").base_path "f.c" ++ ":" ++
          toString (7 : Int) ++ ":")).write " ") :=
  C10_unconditional_physical_accesses (mkGccStyleDumper "b") c10P1 c10P2
    c10P3 (.obj [("uri", .str "f.c")]) (.obj [("startLine", .num 7)])
    "f.c" 7 rfl rfl rfl rfl rfl rfl rfl
